import Mathlib

/-!
Verification of the session/request correlation core of the bubble-wrap
application server and its widget-side JSON-RPC client.

The development shallowly embeds:
- the widget-side request correlator (class McpUiClient in
  src/widgets/lib/use-mcp-ui.ts): request id assignment, the pending-request
  map, response matching, timeouts, destruction, and inbound dispatch;
- the reactive store wrapper around it (class McpUiStore in the same file):
  the memoized initialize path and the host-context cache;
- the server-side session registry and POST routing (src/index.ts);
- the bubble_wrap tool input validation (src/mcp-server.ts and
  src/mcp/server.ts).

State is passed explicitly; the single-threaded event loop of the source is
modelled by folding a step function over a list of atomic events, each event
being one synchronous callback run of the source (a send call, the message
listener firing, a timer callback, destroy).
-/

/- ===================================================================
   Widget-side request correlator (class McpUiClient)
   =================================================================== -/

/-- Outcome with which a pending request promise is settled.
resolved: pending.resolve(response.result);
remoteError: pending.reject(new Error(message, code)) in handleResponse;
timedOut: reject in the setTimeout callback of sendRequest;
destroyed: pending.reject(new Error("Client destroyed")) in destroy(). -/
inductive Outcome where
  | resolved
  | remoteError
  | timedOut
  | destroyed
deriving DecidableEq, Repr

/-- State of one McpUiClient instance.

requestId is the private counter; pending is the key set of the
pendingRequests map (an id is in pending exactly when the map holds an
entry for it, and -- by construction of the source -- exactly when its
setTimeout timer is still armed: sendRequest creates entry and timer
together, handleResponse deletes the entry and clears the timer together,
the timer callback deletes the entry right after the timer fired, and
destroy clears every timer while rejecting every entry).

issued is the history of ids handed out by sendRequest, in order;
settledLog is the history of promise settlements (id, outcome), in order;
posted is the history of messages given to window.parent.postMessage,
recorded as (optional id, method); subs is the multiset of
(method, handler) pairs held in notificationHandlers; listenerOn records
whether the window message listener added in the constructor is still
attached (destroy removes it). -/
structure ClientState where
  requestId : Nat
  pending : List Nat
  issued : List Nat
  settledLog : List (Nat × Outcome)
  posted : List (Option Nat × String)
  subs : List (String × Nat)
  listenerOn : Bool
deriving DecidableEq, Repr

/-- The state of a freshly constructed McpUiClient. -/
def initClient : ClientState :=
  { requestId := 0
    pending := []
    issued := []
    settledLog := []
    posted := []
    subs := []
    listenerOn := true }

/-- McpUiClient.sendRequest: allocate id := ++requestId, register the
pending entry together with its timeout, and post the JSON-RPC request to
the parent frame. Note that the source has no destroyed guard: this runs
identically before and after destroy(). -/
def sendRequest (s : ClientState) (method : String) : ClientState :=
  let id := s.requestId + 1
  { s with
    requestId := id
    pending := s.pending ++ [id]
    issued := s.issued ++ [id]
    posted := s.posted ++ [(some id, method)] }

/-- McpUiClient.handleResponse: look the id up in pendingRequests; if
absent, log and discard; if present, delete the entry, clear its timeout,
and settle the promise (reject on a response error object, resolve
otherwise). -/
def handleResponse (s : ClientState) (id : Nat) (isError : Bool) : ClientState :=
  if id ∈ s.pending then
    { s with
      pending := s.pending.filter (fun j => j != id)
      settledLog := s.settledLog ++
        [(id, if isError then Outcome.remoteError else Outcome.resolved)] }
  else s

/-- The setTimeout callback registered by sendRequest: delete the pending
entry and reject with the timeout error. The event is only meaningful
while the timer is armed, which (see ClientState) is exactly while the id
is pending; a fire for a non-pending id therefore does not occur in the
source and is modelled as a no-op. -/
def fireRequestTimer (s : ClientState) (id : Nat) : ClientState :=
  if id ∈ s.pending then
    { s with
      pending := s.pending.filter (fun j => j != id)
      settledLog := s.settledLog ++ [(id, Outcome.timedOut)] }
  else s

/-- McpUiClient.onNotification: add the handler to the set for the method. -/
def addSubscription (s : ClientState) (method : String) (tok : Nat) : ClientState :=
  { s with subs := s.subs ++ [(method, tok)] }

/-- The unsubscribe closure returned by onNotification: remove exactly that
handler from the set for the method. -/
def removeSubscription (s : ClientState) (method : String) (tok : Nat) : ClientState :=
  { s with subs := s.subs.filter (fun q => q != (method, tok)) }

/-- McpUiClient.destroy: remove the window message listener, reject every
pending request with the "Client destroyed" error while clearing its
timeout, clear the pendingRequests map and the notificationHandlers map. -/
def destroyClient (s : ClientState) : ClientState :=
  { s with
    pending := []
    settledLog := s.settledLog ++ s.pending.map (fun i => (i, Outcome.destroyed))
    subs := []
    listenerOn := false }

/-- One atomic event on the event loop of the widget frame:
a sendRequest call, the arrival of a response message with a given id
(isError says whether it carries an error object), the firing of the
timeout timer of a request, an onNotification call, an unsubscribe call,
or a destroy call. -/
inductive CEvent where
  | send (method : String)
  | response (id : Nat) (isError : Bool)
  | timerFire (id : Nat)
  | subAdd (method : String) (tok : Nat)
  | subRemove (method : String) (tok : Nat)
  | destroy
deriving DecidableEq, Repr

/-- Dispatch one event to the corresponding source callback. A response
event reaches handleResponse only through the window message listener,
which destroy() has possibly removed; the timer callback, in contrast,
fires independently of that listener. -/
def clientStep (s : ClientState) (e : CEvent) : ClientState :=
  match e with
  | CEvent.send m => sendRequest s m
  | CEvent.response id isError =>
      if s.listenerOn then handleResponse s id isError else s
  | CEvent.timerFire id => fireRequestTimer s id
  | CEvent.subAdd m tok => addSubscription s m tok
  | CEvent.subRemove m tok => removeSubscription s m tok
  | CEvent.destroy => destroyClient s

/-- Run a whole event history against a fresh client. -/
def runClient (es : List CEvent) : ClientState :=
  es.foldl clientStep initClient

/-- The ids appearing in the settlement history. -/
def settledIds (s : ClientState) : List Nat :=
  s.settledLog.map Prod.fst

/-- Reachability invariant of a client state: the issued history is exactly
1..requestId in order; pending ids are issued, mutually distinct, and not
yet settled; no id is settled twice; settled ids are issued. -/
structure ClientInv (s : ClientState) : Prop where
  issued_eq : s.issued = List.range' 1 s.requestId
  pending_sub : ∀ i ∈ s.pending, i ∈ s.issued
  pending_nodup : s.pending.Nodup
  settled_nodup : (settledIds s).Nodup
  pending_unsettled : ∀ i ∈ s.pending, i ∉ settledIds s
  settled_sub : ∀ i ∈ settledIds s, i ∈ s.issued

/- ===================================================================
   Inbound dispatch shape analysis (McpUiClient.handleMessage)
   =================================================================== -/

/-- A JSON-RPC id value: string or number (numbers modelled as Nat,
matching the ids the client itself assigns). -/
abbrev RpcId := Nat ⊕ String

/-- The id field of an inbound postMessage payload: absent, present but
null, or present and non-null. -/
inductive IdField where
  | absent
  | presentNull
  | present (v : RpcId)
deriving DecidableEq, Repr

/-- The shape of event.data as probed by handleMessage: the jsonrpc field
(none when absent or when data is not an object), the id field, and the
method field. -/
structure InboundMsg where
  jsonrpc : Option String
  idField : IdField
  method : Option String
deriving DecidableEq, Repr

/-- Where handleMessage routes a message: dropped, handed to
handleResponse with the id, or handed to handleNotification with the
method (fan-out to subscribers). -/
inductive DispatchTarget where
  | ignored
  | toResponse (id : RpcId)
  | toFanOut (method : String)
deriving DecidableEq, Repr

/-- McpUiClient.handleMessage, branch for branch:
drop unless data.jsonrpc is exactly "2.0"; if the id field is present and
non-null, hand to handleResponse (regardless of any method field); else if
a method field is present and the id field is wholly absent, hand to
handleNotification; else drop (in particular an id field that is present
but null falls through both tests). -/
def handleMessage (m : InboundMsg) : DispatchTarget :=
  if m.jsonrpc ≠ some "2.0" then DispatchTarget.ignored
  else
    match m.idField with
    | IdField.present v => DispatchTarget.toResponse v
    | IdField.presentNull => DispatchTarget.ignored
    | IdField.absent =>
        match m.method with
        | some meth => DispatchTarget.toFanOut meth
        | none => DispatchTarget.ignored

/- ===================================================================
   Server-side session registry and POST routing (src/index.ts)
   =================================================================== -/

/-- Server state: the transports object, modelled as an association list
from session id to a transport instance identity (a Nat tag standing for
object identity of the StreamableHTTPServerTransport plus its connected
McpServer), and a counter supplying fresh instance tags. -/
structure ServerState where
  registry : List (String × Nat)
  nextTransport : Nat
deriving DecidableEq, Repr

/-- One POST /mcp call as the handler sees it: the optional
mcp-session-id header and whether isInitializeRequest(req.body) holds. -/
structure PostMsg where
  sessionId : Option String
  isInitReq : Bool
deriving DecidableEq, Repr

/-- Result of one POST /mcp call: the request body was handled by an
existing transport; a fresh transport was created, registered under a
generated session id, and handled the body; the 400 Bad Request response
(no valid session ID provided) was sent; or the reuse branch was taken on
a value inherited from Object.prototype, so that the subsequent
transport.handleRequest call is made on a non-transport (it throws a
TypeError inside the async handler and no response is produced). -/
inductive PostResult where
  | delivered (tid : Nat)
  | createdAndDelivered (sid : String) (tid : Nat)
  | badRequest
  | crashedOnInherited
deriving DecidableEq, Repr

/-- JavaScript truthiness of the session id header value: undefined and
the empty string are falsy. -/
def sidTruthy : Option String → Bool
  | none => false
  | some s => s ≠ ""

/-- The property names every plain object literal inherits from
Object.prototype in Node. Each of them is bound to a function (or, for
the last, to an accessor yielding Object.prototype itself), so reading
any of them off the transports object yields a truthy non-transport. -/
def objectProtoProps : List String :=
  ["constructor", "hasOwnProperty", "isPrototypeOf", "propertyIsEnumerable",
   "toLocaleString", "toString", "valueOf", "__defineGetter__",
   "__defineSetter__", "__lookupGetter__", "__lookupSetter__", "__proto__"]

/-- What a property read off the transports object can find: an own entry
(a registered transport) or a truthy value inherited from
Object.prototype. -/
inductive JsProp where
  | own (tid : Nat)
  | inherited
deriving DecidableEq, Repr

/-- The property read transports[sessionId]: transports is a plain object
literal, so the read falls through to Object.prototype when the key is
not an own (registered) key; only then is the result undefined. -/
def transportsGet (reg : List (String × Nat)) (k : String) : Option JsProp :=
  match reg.lookup k with
  | some tid => some (JsProp.own tid)
  | none => if k ∈ objectProtoProps then some JsProp.inherited else none

/-- The probe sessionId && transports[sessionId] of the first branch. -/
def foundTransport (s : ServerState) (m : PostMsg) : Option JsProp :=
  match m.sessionId with
  | some sid => if sid = "" then none else transportsGet s.registry sid
  | none => none

/-- The app.post("/mcp") handler. Branches exactly as the source:
reuse whenever the truthy probe finds anything -- a registered transport
or a value inherited from Object.prototype (in the latter case the
handler then calls handleRequest on that non-transport and crashes);
create, register under the generated id (the onsessioninitialized
callback inserting into transports), and deliver, when the header is
absent (or falsy) and the body is an initialization request; otherwise
answer 400 and leave the registry untouched. The generated session id
(randomUUID() in the source) is passed in as the oracle argument gen. -/
def postMcp (gen : String) (s : ServerState) (m : PostMsg) :
    ServerState × PostResult :=
  match foundTransport s m with
  | some (JsProp.own tid) => (s, PostResult.delivered tid)
  | some JsProp.inherited => (s, PostResult.crashedOnInherited)
  | none =>
      if !(sidTruthy m.sessionId) && m.isInitReq then
        let tid := s.nextTransport
        ({ registry := (gen, tid) :: s.registry, nextTransport := tid + 1 },
         PostResult.createdAndDelivered gen tid)
      else
        (s, PostResult.badRequest)

/-- Process a sequence of POST calls, each paired with the session id the
generator would produce for it (consulted only on the creating branch). -/
def postSeq (s : ServerState) : List (String × PostMsg) → ServerState × List PostResult
  | [] => (s, [])
  | (g, m) :: rest =>
      let r := postMcp g s m
      let r2 := postSeq r.1 rest
      (r2.1, r.2 :: r2.2)

/- ===================================================================
   Host context cache and merge (McpUiClient / McpUiStore)
   =================================================================== -/

/-- A host context value: number or string (enough to distinguish the
values the claims mention; the merge never inspects values). -/
inductive CtxVal where
  | num (n : Int)
  | str (s : String)
deriving DecidableEq, Repr

/-- A host context object, observed through key lookup. Earlier entries
shadow later ones, so prepending an object realises the JavaScript
spread update. -/
abbrev Ctx := List (String × CtxVal)

/-- Key lookup in a context object. -/
def ctxGet (c : Ctx) (k : String) : Option CtxVal :=
  c.lookup k

/-- Key lookup through the Option wrapping of the cached context. -/
def ctxGetOpt (c : Option Ctx) (k : String) : Option CtxVal :=
  c.bind (fun x => ctxGet x k)

/-- The spread { ...old, ...upd }: keys of upd overwrite keys of old;
realised for lookup by putting upd in front. -/
def mergeHostContext (old upd : Ctx) : Ctx :=
  upd ++ old

/-- The host-context-changed branch of McpUiClient.handleNotification:
merge only when both this.hostContext and notification.params are truthy
(a non-null cached context and a present params object); otherwise leave
the cache as it is. -/
def clientApplyHostContextChanged (hostContext : Option Ctx)
    (params : Option Ctx) : Option Ctx :=
  match hostContext, params with
  | some c, some p => some (mergeHostContext c p)
  | c, _ => c

/-- The onHostContextChanged handler installed by McpUiStore.doInitialize:
setState with { ...this.state.hostContext, ...params }; spreading null or
undefined contributes nothing. -/
def storeApplyHostContextChanged (hostContext : Option Ctx)
    (params : Option Ctx) : Option Ctx :=
  some (mergeHostContext (hostContext.getD []) (params.getD []))

/-- The assignment this.hostContext = result.hostContext ?? null in
McpUiClient.initialize: the cache is wholly replaced, whatever it held. -/
def applyInitializeHostContext (old : Option Ctx)
    (resultHostContext : Option Ctx) : Option Ctx :=
  resultHostContext

/- ===================================================================
   Memoized initialization (McpUiStore.initialize / McpUiClient.initialize)
   =================================================================== -/

/-- The reply the host sends to the ui/initialize request. -/
structure UiInitializeResult where
  protocolVersion : String
  hostContext : Option Ctx
deriving DecidableEq, Repr

/-- Joint state of the store and the client along the initialization path.
initPromiseSet: this.initPromise is non-null (never reset by the source);
storeInitialized: this.state.initialized;
replyAwaited: the ui/initialize request sent by doInitialize via
McpUiClient.initialize is still pending;
clientHostContext: the client-side cached host context;
uiInitializeSent: how many ui/initialize requests were posted;
initializedNotified: how many ui/notifications/initialized notifications
were posted. -/
structure StoreState where
  initPromiseSet : Bool
  storeInitialized : Bool
  replyAwaited : Bool
  clientHostContext : Option Ctx
  uiInitializeSent : Nat
  initializedNotified : Nat
deriving DecidableEq, Repr

/-- Store state before any initialize() call. -/
def initStore : StoreState :=
  { initPromiseSet := false
    storeInitialized := false
    replyAwaited := false
    clientHostContext := none
    uiInitializeSent := 0
    initializedNotified := 0 }

/-- One event on the initialization path: a McpUiStore.initialize() call,
or the arrival of the host reply to the pending ui/initialize request. -/
inductive IEvent where
  | storeInit
  | hostReply (r : UiInitializeResult)
deriving DecidableEq, Repr

/-- McpUiStore.initialize: return the memoized promise when initPromise is
already set; return early when state.initialized; otherwise memoize a new
doInitialize run, whose synchronous prefix (McpUiClient.initialize up to
its await) posts the single ui/initialize request.

Host reply: the continuation of McpUiClient.initialize past the await:
record this.hostContext = result.hostContext ?? null, post the single
ui/notifications/initialized notification, and let doInitialize mark the
store state initialized with the same host context. -/
def storeStep (s : StoreState) (e : IEvent) : StoreState :=
  match e with
  | IEvent.storeInit =>
      if s.initPromiseSet then s
      else if s.storeInitialized then s
      else
        { s with
          initPromiseSet := true
          replyAwaited := true
          uiInitializeSent := s.uiInitializeSent + 1 }
  | IEvent.hostReply r =>
      if s.replyAwaited then
        { s with
          replyAwaited := false
          storeInitialized := true
          clientHostContext := r.hostContext
          initializedNotified := s.initializedNotified + 1 }
      else s

/-- Run an initialization event history against the fresh store. -/
def runStore (es : List IEvent) : StoreState :=
  es.foldl storeStep initStore

/-- Reachability invariant of the initialization path. -/
structure StoreInv (s : StoreState) : Prop where
  sent_eq : s.uiInitializeSent = if s.initPromiseSet then 1 else 0
  notified_eq : s.initializedNotified = if s.storeInitialized then 1 else 0
  awaited_prom : s.replyAwaited = true →
    s.initPromiseSet = true ∧ s.storeInitialized = false
  init_prom : s.storeInitialized = true → s.initPromiseSet = true

/- ===================================================================
   Singleton accessor (getMcpUiClient)
   =================================================================== -/

/-- Constructor options of McpUiClient (each field optional). -/
structure McpUiClientOptions where
  clientName : Option String := none
  clientVersion : Option String := none
  timeoutMs : Option Nat := none
  debug : Option Bool := none
deriving DecidableEq, Repr

/-- The defaulted options the McpUiClient constructor stores. -/
structure ResolvedOptions where
  clientName : String
  clientVersion : String
  timeoutMs : Nat
  debug : Bool
deriving DecidableEq, Repr

/-- The defaulting performed in the McpUiClient constructor. -/
def resolveOptions (o : McpUiClientOptions) : ResolvedOptions :=
  { clientName := o.clientName.getD "mcp-ui-client"
    clientVersion := o.clientVersion.getD "1.0.0"
    timeoutMs := o.timeoutMs.getD 30000
    debug := o.debug.getD false }

/-- A constructed client instance, as far as the singleton accessor is
concerned: the options it was built from. Instance identity is structural
here because the accessor either builds exactly one instance or returns
the stored one unchanged. -/
structure ClientInstance where
  options : ResolvedOptions
deriving DecidableEq, Repr

/-- getMcpUiClient over the module-level clientInstance variable: build
and store an instance on the first call, return the stored instance (the
options argument unread) on every later call. -/
def getMcpUiClient (opts : McpUiClientOptions) (inst : Option ClientInstance) :
    ClientInstance × Option ClientInstance :=
  match inst with
  | some c => (c, some c)
  | none =>
      let c : ClientInstance := { options := resolveOptions opts }
      (c, some c)

/- ===================================================================
   bubble_wrap tool input validation (src/mcp-server.ts, src/mcp/server.ts)
   =================================================================== -/

/-- What the bubble_wrap handler returns on success: the text content
line, the uri of the embedded UI resource, and the structuredContent
bubble count. JavaScript numbers are modelled as rationals. -/
structure BubbleWrapResult where
  text : String
  uiResourceUri : String
  structuredBubbleCount : Int
deriving DecidableEq, Repr

/-- The clamp Math.min(Math.max(Math.floor(bubbleCount), 1), 500). -/
def validBubbleCount (bc : Rat) : Int :=
  min (max bc.floor 1) 500

/-- The bubble_wrap handler of src/mcp-server.ts: default the count to
100, throw (Except.error, surfaced to the remote caller as a request
failure) when the count is below 1 or above 500, otherwise clamp and
build the text content, the UI resource and the structured content. -/
def bubbleWrapHandler (bubbleCount : Option Rat) : Except String BubbleWrapResult :=
  let bc := bubbleCount.getD 100
  if bc < 1 ∨ bc > 500 then
    Except.error "Bubble count must be between 1 and 500"
  else
    let v := validBubbleCount bc
    Except.ok
      { text := "Created a bubble wrap simulator with " ++ toString v ++
          " bubbles. Click to pop them all!"
        uiResourceUri := "ui://widgets/bubble-wrap/" ++ toString v
        structuredBubbleCount := v }

/-- The zod refinement on bubbleCount in src/mcp/server.ts:
(val) => val >= 1 && val <= 500; when false, the SDK rejects the call with
an input validation error before the handler runs. -/
def bubbleCountRefine (val : Rat) : Bool :=
  decide (1 ≤ val) && decide (val ≤ 500)

/- ===================================================================
   Helper lemmas
   =================================================================== -/

theorem range1_concat (n : Nat) :
    List.range' 1 (n + 1) = List.range' 1 n ++ [n + 1] := by
  have h : List.range' 1 (n + 1) 1 = List.range' 1 n 1 ++ [1 + 1 * n] :=
    List.range'_concat 1 n
  simpa [Nat.add_comm] using h

theorem mem_range1 {n i : Nat} : i ∈ List.range' 1 n ↔ 1 ≤ i ∧ i < 1 + n :=
  List.mem_range'_1

theorem filter_fst_length (l : List (Nat × Outcome)) (i : Nat) :
    (l.filter (fun p => p.1 == i)).length = (l.map Prod.fst).count i := by
  rw [List.count, List.countP_map, ← List.countP_eq_length_filter]
  rfl

theorem map_fst_tag (l : List Nat) (o : Outcome) :
    List.map Prod.fst (l.map (fun i => (i, o))) = l := by
  induction l with
  | nil => rfl
  | cons a t ih => simp [ih]

theorem lookup_append (a b : Ctx) (k : String) :
    List.lookup k (a ++ b) = (List.lookup k a).or (List.lookup k b) := by
  induction a with
  | nil => simp [List.lookup]
  | cons q l ih =>
      cases h : (k == q.1) <;> simp [List.lookup, h, ih]

/- ===================================================================
   Client correlator: invariant preservation
   =================================================================== -/

theorem clientInv_init : ClientInv initClient := by
  constructor <;> simp [initClient, settledIds]

theorem clientInv_step (s : ClientState) (e : CEvent) (h : ClientInv s) :
    ClientInv (clientStep s e) := by
  cases e with
  | send m =>
      have hnotp : s.requestId + 1 ∉ s.pending := by
        intro hc
        have := mem_range1.mp (h.issued_eq ▸ h.pending_sub _ hc)
        omega
      have hnots : s.requestId + 1 ∉ settledIds s := by
        intro hc
        have := mem_range1.mp (h.issued_eq ▸ h.settled_sub _ hc)
        omega
      constructor
      · simp only [clientStep, sendRequest]
        rw [h.issued_eq, range1_concat]
      · intro i hi
        simp only [clientStep, sendRequest, List.mem_append,
          List.mem_singleton] at hi ⊢
        rcases hi with hi | hi
        · exact Or.inl (h.pending_sub _ hi)
        · exact Or.inr hi
      · simp only [clientStep, sendRequest]
        rw [List.nodup_append]
        refine ⟨h.pending_nodup, List.nodup_singleton _, ?_⟩
        intro a ha hb
        rw [List.mem_singleton] at hb
        exact hnotp (hb ▸ ha)
      · simpa [clientStep, sendRequest, settledIds] using h.settled_nodup
      · intro i hi
        simp only [clientStep, sendRequest, List.mem_append,
          List.mem_singleton] at hi
        simp only [clientStep, sendRequest, settledIds]
        rcases hi with hi | hi
        · exact h.pending_unsettled _ hi
        · exact hi ▸ hnots
      · intro i hi
        simp only [clientStep, sendRequest, settledIds] at hi
        simp only [clientStep, sendRequest, List.mem_append]
        exact Or.inl (h.settled_sub _ hi)
  | response id isError =>
      by_cases hl : s.listenerOn
      · by_cases hp : id ∈ s.pending
        · constructor
          · simpa [clientStep, hl, handleResponse, hp] using h.issued_eq
          · intro i hi
            simp only [clientStep, hl, if_true, handleResponse, hp,
              List.mem_filter] at hi
            simpa [clientStep, hl, handleResponse, hp] using
              h.pending_sub _ hi.1
          · simp only [clientStep, hl, if_true, handleResponse, hp]
            exact List.Nodup.filter _ h.pending_nodup
          · simp only [clientStep, hl, if_true, handleResponse, hp,
              settledIds, List.map_append]
            rw [List.nodup_append]
            refine ⟨h.settled_nodup, by simp, ?_⟩
            intro a ha hb
            simp only [List.map_cons, List.map_nil, List.mem_singleton] at hb
            exact h.pending_unsettled _ (hb ▸ hp) (hb ▸ ha)
          · intro i hi
            simp only [clientStep, hl, if_true, handleResponse, hp,
              List.mem_filter, bne_iff_ne, ne_eq] at hi
            simp only [clientStep, hl, if_true, handleResponse, hp,
              settledIds, List.map_append, List.mem_append]
            rintro (hc | hc)
            · exact h.pending_unsettled _ hi.1 hc
            · simp only [List.map_cons, List.map_nil,
                List.mem_singleton] at hc
              exact hi.2 hc
          · intro i hi
            simp only [clientStep, hl, if_true, handleResponse, hp,
              settledIds, List.map_append, List.mem_append] at hi
            simp only [clientStep, hl, if_true, handleResponse, hp]
            rcases hi with hi | hi
            · exact h.settled_sub _ hi
            · simp only [List.map_cons, List.map_nil,
                List.mem_singleton] at hi
              exact hi ▸ h.pending_sub _ hp
        · have heq : clientStep s (CEvent.response id isError) = s := by
            simp [clientStep, hl, handleResponse, hp]
          rw [heq]; exact h
      · have heq : clientStep s (CEvent.response id isError) = s := by
          simp [clientStep, hl]
        rw [heq]; exact h
  | timerFire id =>
      by_cases hp : id ∈ s.pending
      · constructor
        · simpa [clientStep, fireRequestTimer, hp] using h.issued_eq
        · intro i hi
          simp only [clientStep, fireRequestTimer, hp, if_true,
            List.mem_filter] at hi
          simpa [clientStep, fireRequestTimer, hp] using h.pending_sub _ hi.1
        · simp only [clientStep, fireRequestTimer, hp, if_true]
          exact List.Nodup.filter _ h.pending_nodup
        · simp only [clientStep, fireRequestTimer, hp, if_true, settledIds,
            List.map_append]
          rw [List.nodup_append]
          refine ⟨h.settled_nodup, by simp, ?_⟩
          intro a ha hb
          simp only [List.map_cons, List.map_nil, List.mem_singleton] at hb
          exact h.pending_unsettled _ (hb ▸ hp) (hb ▸ ha)
        · intro i hi
          simp only [clientStep, fireRequestTimer, hp, if_true,
            List.mem_filter, bne_iff_ne, ne_eq] at hi
          simp only [clientStep, fireRequestTimer, hp, if_true, settledIds,
            List.map_append, List.mem_append]
          rintro (hc | hc)
          · exact h.pending_unsettled _ hi.1 hc
          · simp only [List.map_cons, List.map_nil, List.mem_singleton] at hc
            exact hi.2 hc
        · intro i hi
          simp only [clientStep, fireRequestTimer, hp, if_true, settledIds,
            List.map_append, List.mem_append] at hi
          simp only [clientStep, fireRequestTimer, hp, if_true]
          rcases hi with hi | hi
          · exact h.settled_sub _ hi
          · simp only [List.map_cons, List.map_nil, List.mem_singleton] at hi
            exact hi ▸ h.pending_sub _ hp
      · have heq : clientStep s (CEvent.timerFire id) = s := by
          simp [clientStep, fireRequestTimer, hp]
        rw [heq]; exact h
  | subAdd m tok =>
      constructor
      · simpa [clientStep, addSubscription] using h.issued_eq
      · intro i hi
        simp only [clientStep, addSubscription] at hi ⊢
        exact h.pending_sub _ hi
      · simpa [clientStep, addSubscription] using h.pending_nodup
      · simpa [clientStep, addSubscription, settledIds] using h.settled_nodup
      · intro i hi
        simp only [clientStep, addSubscription, settledIds] at hi ⊢
        exact h.pending_unsettled _ hi
      · intro i hi
        simp only [clientStep, addSubscription, settledIds] at hi ⊢
        exact h.settled_sub _ hi
  | subRemove m tok =>
      constructor
      · simpa [clientStep, removeSubscription] using h.issued_eq
      · intro i hi
        simp only [clientStep, removeSubscription] at hi ⊢
        exact h.pending_sub _ hi
      · simpa [clientStep, removeSubscription] using h.pending_nodup
      · simpa [clientStep, removeSubscription, settledIds] using
          h.settled_nodup
      · intro i hi
        simp only [clientStep, removeSubscription, settledIds] at hi ⊢
        exact h.pending_unsettled _ hi
      · intro i hi
        simp only [clientStep, removeSubscription, settledIds] at hi ⊢
        exact h.settled_sub _ hi
  | destroy =>
      have hset : settledIds (clientStep s CEvent.destroy)
          = settledIds s ++ s.pending := by
        simp only [clientStep, destroyClient, settledIds, List.map_append,
          map_fst_tag]
      constructor
      · simpa [clientStep, destroyClient] using h.issued_eq
      · intro i hi
        simp [clientStep, destroyClient] at hi
      · simp [clientStep, destroyClient]
      · rw [hset, List.nodup_append]
        refine ⟨h.settled_nodup, h.pending_nodup, ?_⟩
        intro a ha hb
        exact h.pending_unsettled _ hb ha
      · intro i hi
        simp [clientStep, destroyClient] at hi
      · intro i hi
        rw [hset] at hi
        simp only [clientStep, destroyClient]
        rcases List.mem_append.mp hi with hi | hi
        · exact h.settled_sub _ hi
        · exact h.pending_sub _ hi

theorem clientInv_foldl (es : List CEvent) :
    ∀ s, ClientInv s → ClientInv (es.foldl clientStep s) := by
  induction es with
  | nil => intro s h; exact h
  | cons e es ih =>
      intro s h
      exact ih _ (clientInv_step s e h)

theorem clientInv_run (es : List CEvent) : ClientInv (runClient es) :=
  clientInv_foldl es initClient clientInv_init

theorem foldl_no_destroyed (es : List CEvent) :
    ∀ s, CEvent.destroy ∉ es →
      (∀ p ∈ s.settledLog, p.2 ≠ Outcome.destroyed) →
      ∀ p ∈ (es.foldl clientStep s).settledLog, p.2 ≠ Outcome.destroyed := by
  induction es with
  | nil => intro s _ hs; exact hs
  | cons e es ih =>
      intro s he hs
      have he1 : e ≠ CEvent.destroy := fun hc => he (hc ▸ List.mem_cons_self _ _)
      have he2 : CEvent.destroy ∉ es := fun hc => he (List.mem_cons_of_mem _ hc)
      refine ih (clientStep s e) he2 ?_
      intro p hp
      cases e with
      | send m =>
          simp only [clientStep, sendRequest] at hp
          exact hs p hp
      | response id isError =>
          by_cases hl : s.listenerOn
          · by_cases hmem : id ∈ s.pending
            · simp only [clientStep, hl, if_true, handleResponse, hmem,
                List.mem_append, List.mem_singleton] at hp
              rcases hp with hp | hp
              · exact hs p hp
              · rw [hp]
                cases isError <;> simp
            · simp only [clientStep, hl, if_true, handleResponse, hmem,
                if_false] at hp
              exact hs p hp
          · simp only [clientStep, hl, if_false] at hp
            exact hs p hp
      | timerFire id =>
          by_cases hmem : id ∈ s.pending
          · simp only [clientStep, fireRequestTimer, hmem, if_true,
              List.mem_append, List.mem_singleton] at hp
            rcases hp with hp | hp
            · exact hs p hp
            · rw [hp]; simp
          · simp only [clientStep, fireRequestTimer, hmem, if_false] at hp
            exact hs p hp
      | subAdd m tok =>
          simp only [clientStep, addSubscription] at hp
          exact hs p hp
      | subRemove m tok =>
          simp only [clientStep, removeSubscription] at hp
          exact hs p hp
      | destroy => exact absurd rfl he1

/- ===================================================================
   Claim theorems: request correlator
   =================================================================== -/

/-- C3: along any event history of one correlator instance, the request
ids handed out by sendRequest are pairwise distinct, strictly increasing
in issue order, form exactly the sequence 1, 2, ..., requestId (so the
first issued id is 1 and no id is ever reused for the lifetime of the
instance). -/
theorem claim3_request_ids (es : List CEvent) :
    (runClient es).issued.Nodup
    ∧ List.Chain' (· < ·) (runClient es).issued
    ∧ (runClient es).issued.head?
        = (if (runClient es).requestId = 0 then none else some 1)
    ∧ (runClient es).issued = List.range' 1 (runClient es).requestId := by
  have h := (clientInv_run es).issued_eq
  refine ⟨?_, ?_, ?_, h⟩
  · rw [h]; exact List.nodup_range' 1 _
  · rw [h]; exact (List.pairwise_lt_range' 1 _).chain'
  · rw [h]
    cases hn : (runClient es).requestId with
    | zero => rfl
    | succ m => simp [List.range'_succ]

/-- C1: per request id, at most one settlement ever appears in the
settlement history; in a destroy-free history every settlement outcome is
resolution with the result, rejection with the remote error, or rejection
with the timeout error; a response arriving for an id that is no longer
pending (in particular one whose timeout already fired) is discarded and
leaves the state, hence every settled promise, untouched; and the timeout
of a request that is still pending settles it exactly once, with the
timeout rejection. -/
theorem claim1_exactly_one_settlement (es : List CEvent) (id : Nat) (b : Bool) :
    ((runClient es).settledLog.filter (fun p => p.1 == id)).length ≤ 1
    ∧ (CEvent.destroy ∉ es →
        ∀ p ∈ (runClient es).settledLog,
          p.2 = Outcome.resolved ∨ p.2 = Outcome.remoteError ∨
            p.2 = Outcome.timedOut)
    ∧ (id ∉ (runClient es).pending →
        clientStep (runClient es) (CEvent.response id b) = runClient es)
    ∧ (id ∈ (runClient es).pending →
        (clientStep (runClient es) (CEvent.timerFire id)).settledLog
            = (runClient es).settledLog ++ [(id, Outcome.timedOut)]
        ∧ ((clientStep (runClient es) (CEvent.timerFire id)).settledLog.filter
            (fun p => p.1 == id)).length = 1) := by
  have hinv := clientInv_run es
  refine ⟨?_, ?_, ?_, ?_⟩
  · rw [filter_fst_length]
    exact List.nodup_iff_count_le_one.mp hinv.settled_nodup id
  · intro hnd p hp
    have := foldl_no_destroyed es initClient hnd (by simp [initClient]) p hp
    cases hpo : p.2 <;> simp_all
  · intro hnp
    by_cases hl : (runClient es).listenerOn
    · simp [clientStep, hl, handleResponse, hnp]
    · simp [clientStep, hl]
  · intro hp
    have hlog : (clientStep (runClient es) (CEvent.timerFire id)).settledLog
        = (runClient es).settledLog ++ [(id, Outcome.timedOut)] := by
      simp [clientStep, fireRequestTimer, hp]
    refine ⟨hlog, ?_⟩
    rw [hlog, List.filter_append, List.length_append]
    have h0 : ((runClient es).settledLog.filter (fun p => p.1 == id)).length
        = 0 := by
      rw [List.length_eq_zero, List.filter_eq_nil]
      intro p hmem hpe
      have hpid : p.1 = id := by simpa using hpe
      exact hinv.pending_unsettled id hp
        (hpid ▸ List.mem_map_of_mem Prod.fst hmem)
    rw [h0]
    simp

/-- Concrete run for C1: after sending one request, its timeout settles it
exactly once, and a stray response for the never-issued id 99 changes
nothing. -/
theorem claim1_exactly_one_settlement_witness :
    (clientStep (runClient [CEvent.send "ping"]) (CEvent.timerFire 1)).settledLog
        = [(1, Outcome.timedOut)]
    ∧ clientStep (runClient [CEvent.send "ping"]) (CEvent.response 99 false)
        = runClient [CEvent.send "ping"] := by
  refine ⟨?_, ?_⟩
  · have h := ((claim1_exactly_one_settlement [CEvent.send "ping"] 1
      false).2.2.2 (by decide)).1
    simpa using h
  · exact (claim1_exactly_one_settlement [CEvent.send "ping"] 99
      false).2.2.1 (by decide)

/-- C4 counterexample: the claim states that a sendRequest after destroy()
fails with a ClientDestroyedError and posts nothing. In the source,
sendRequest has no destroyed guard: with three requests pending, destroy
settles those three with the destroyed rejection, but a fourth sendRequest
afterwards still posts its message to the parent frame, is entered into the
pending map, and is not settled at all at that point. -/
theorem claim4_counterexample :
    (runClient [CEvent.send "a", CEvent.send "b", CEvent.send "c",
        CEvent.destroy, CEvent.send "d"]).posted
      = [(some 1, "a"), (some 2, "b"), (some 3, "c"), (some 4, "d")]
    ∧ (runClient [CEvent.send "a", CEvent.send "b", CEvent.send "c",
        CEvent.destroy, CEvent.send "d"]).pending = [4]
    ∧ (runClient [CEvent.send "a", CEvent.send "b", CEvent.send "c",
        CEvent.destroy, CEvent.send "d"]).settledLog
      = [(1, Outcome.destroyed), (2, Outcome.destroyed),
         (3, Outcome.destroyed)] := by
  refine ⟨?_, ?_, ?_⟩ <;> rfl

/-- C4 (amended): destroying the correlator settles every pending request
with the destroyed rejection, empties the pending map (and with it every
armed timeout), clears all subscriptions and removes the message listener;
but a send attempted after destruction is still accepted: it posts the
request message to the parent frame and registers a new pending entry
instead of failing. -/
theorem claim4_destroy_semantics (es : List CEvent) (m : String) :
    (runClient (es ++ [CEvent.destroy])).pending = []
    ∧ (runClient (es ++ [CEvent.destroy])).subs = []
    ∧ (runClient (es ++ [CEvent.destroy])).listenerOn = false
    ∧ (∀ i ∈ (runClient es).pending,
        (i, Outcome.destroyed) ∈ (runClient (es ++ [CEvent.destroy])).settledLog)
    ∧ (runClient (es ++ [CEvent.destroy, CEvent.send m])).posted
        = (runClient (es ++ [CEvent.destroy])).posted
          ++ [(some ((runClient (es ++ [CEvent.destroy])).requestId + 1), m)]
    ∧ (runClient (es ++ [CEvent.destroy, CEvent.send m])).pending
        = [(runClient (es ++ [CEvent.destroy])).requestId + 1] := by
  have h1 : runClient (es ++ [CEvent.destroy])
      = clientStep (runClient es) CEvent.destroy := by
    simp [runClient, List.foldl_append]
  have h2 : runClient (es ++ [CEvent.destroy, CEvent.send m])
      = clientStep (clientStep (runClient es) CEvent.destroy)
          (CEvent.send m) := by
    simp [runClient, List.foldl_append]
  refine ⟨?_, ?_, ?_, ?_, ?_, ?_⟩
  · rw [h1]; rfl
  · rw [h1]; rfl
  · rw [h1]; rfl
  · intro i hi
    rw [h1]
    simp only [clientStep, destroyClient, List.mem_append]
    exact Or.inr (List.mem_map_of_mem _ hi)
  · rw [h1, h2]
    rfl
  · rw [h1, h2]
    rfl

/-- Concrete run for C4 (amended): with one request pending, destroy
settles it with the destroyed rejection. -/
theorem claim4_destroy_semantics_witness :
    (1, Outcome.destroyed)
      ∈ (runClient ([CEvent.send "ping"] ++ [CEvent.destroy])).settledLog
    ∧ (runClient ([CEvent.send "ping"] ++ [CEvent.destroy])).subs = [] := by
  refine ⟨?_, ?_⟩
  · exact (claim4_destroy_semantics [CEvent.send "ping"] "x").2.2.2.1 1
      (by decide)
  · exact (claim4_destroy_semantics [CEvent.send "ping"] "x").2.1

/-- C9: in handleMessage, any payload with jsonrpc "2.0" whose id field is
present and non-null is routed to response handling, even when it also
carries a method (so a host-to-guest request is treated as a response:
it is never fanned out to subscribers and never answered), and any payload
whose id field is present but null is ignored entirely. -/
theorem claim9_dispatch_shape (m : InboundMsg) (v : RpcId) :
    (m.jsonrpc = some "2.0" → m.idField = IdField.present v →
        handleMessage m = DispatchTarget.toResponse v
        ∧ ∀ meth, handleMessage m ≠ DispatchTarget.toFanOut meth)
    ∧ (m.jsonrpc = some "2.0" → m.idField = IdField.presentNull →
        handleMessage m = DispatchTarget.ignored) := by
  refine ⟨?_, ?_⟩
  · intro hj hid
    have h : handleMessage m = DispatchTarget.toResponse v := by
      simp [handleMessage, hj, hid]
    exact ⟨h, fun meth hc => by rw [h] at hc; cases hc⟩
  · intro hj hid
    simp [handleMessage, hj, hid]

/-- Concrete run for C9: a host-to-guest request carrying both an id and a
method is routed to response handling, and a payload with a null id and a
method is dropped. -/
theorem claim9_dispatch_shape_witness :
    handleMessage ⟨some "2.0", IdField.present (Sum.inl 7), some "ui/some-request"⟩
      = DispatchTarget.toResponse (Sum.inl 7)
    ∧ handleMessage ⟨some "2.0", IdField.presentNull, some "ui/some-request"⟩
      = DispatchTarget.ignored := by
  refine ⟨?_, ?_⟩
  · exact ((claim9_dispatch_shape _ (Sum.inl 7)).1 rfl rfl).1
  · exact (claim9_dispatch_shape
      ⟨some "2.0", IdField.presentNull, some "ui/some-request"⟩
      (Sum.inl 7)).2 rfl rfl

/-- C10: getMcpUiClient is a get-or-create singleton over the module-level
instance variable: the first call constructs the instance from its options
argument (with constructor defaulting), and every later call returns that
same instance unchanged, its own options argument ignored. -/
theorem claim10_singleton (o1 o2 : McpUiClientOptions) (c : ClientInstance) :
    (getMcpUiClient o2 (getMcpUiClient o1 none).2).1 = (getMcpUiClient o1 none).1
    ∧ (getMcpUiClient o2 (getMcpUiClient o1 none).2).2 = (getMcpUiClient o1 none).2
    ∧ (getMcpUiClient o1 none).1.options = resolveOptions o1
    ∧ getMcpUiClient o2 (some c) = (c, some c) := by
  refine ⟨rfl, rfl, rfl, rfl⟩

/- ===================================================================
   Claim theorems: server session registry
   =================================================================== -/

theorem foundTransport_of_falsy (s : ServerState) (m : PostMsg)
    (h : sidTruthy m.sessionId = false) : foundTransport s m = none := by
  cases hm : m.sessionId with
  | none => simp [foundTransport, hm]
  | some sid =>
      have hsid : sid = "" := by
        rw [hm] at h
        simpa [sidTruthy] using h
      simp [foundTransport, hm, hsid]

theorem postSeq_reuse (g : String) (tid : Nat) (rest : List PostMsg) :
    ∀ s : ServerState, g ≠ "" → (∀ m ∈ rest, m.sessionId = some g) →
      s.registry.lookup g = some tid →
      postSeq s (rest.map (fun m => ("", m)))
        = (s, rest.map (fun _ => PostResult.delivered tid)) := by
  induction rest with
  | nil => intro s _ _ _; rfl
  | cons m rest ih =>
      intro s hg hrest hlook
      have hm : m.sessionId = some g := hrest m (List.mem_cons_self _ _)
      have hstep : postMcp "" s m = (s, PostResult.delivered tid) := by
        simp [postMcp, foundTransport, transportsGet, hm, hg, hlook]
      have htail := ih s hg (fun x hx => hrest x (List.mem_cons_of_mem _ hx)) hlook
      simp [postSeq, hstep, htail]

/-- C2: starting from any registry state, a POST sequence whose first
message carries no (truthy) session id header and is an initialization
request, and whose every later message presents the session id generated
for the first, creates exactly one transport entry -- registered under the
generated id -- and delivers every later message to that same transport
instance; the registry afterwards is the old registry plus that single
entry. -/
theorem claim2_session_routing (s0 : ServerState) (g : String) (m0 : PostMsg)
    (rest : List PostMsg) (hg : g ≠ "")
    (hfresh : s0.registry.lookup g = none)
    (h0 : sidTruthy m0.sessionId = false) (hinit : m0.isInitReq = true)
    (hrest : ∀ m ∈ rest, m.sessionId = some g) :
    (postSeq s0 ((g, m0) :: rest.map (fun m => ("", m)))).1.registry
        = (g, s0.nextTransport) :: s0.registry
    ∧ (postSeq s0 ((g, m0) :: rest.map (fun m => ("", m)))).2
        = PostResult.createdAndDelivered g s0.nextTransport
            :: rest.map (fun _ => PostResult.delivered s0.nextTransport) := by
  have hfound := foundTransport_of_falsy s0 m0 h0
  have hstep : postMcp g s0 m0
      = (⟨(g, s0.nextTransport) :: s0.registry, s0.nextTransport + 1⟩,
         PostResult.createdAndDelivered g s0.nextTransport) := by
    simp [postMcp, hfound, h0, hinit]
  have hlook : ((⟨(g, s0.nextTransport) :: s0.registry,
      s0.nextTransport + 1⟩ : ServerState)).registry.lookup g
      = some s0.nextTransport := by
    simp [List.lookup]
  have htail := postSeq_reuse g s0.nextTransport rest _ hg hrest hlook
  constructor
  · simp [postSeq, hstep, htail]
  · simp [postSeq, hstep, htail]

/-- Concrete run for C2: one initialization POST without a session header
followed by two POSTs presenting the generated id: one entry is created and
both later messages reach the same transport. -/
theorem claim2_session_routing_witness :
    (postSeq { registry := [], nextTransport := 0 }
        (("sid-1", ({ sessionId := none, isInitReq := true } : PostMsg))
          :: ([({ sessionId := some "sid-1", isInitReq := false } : PostMsg),
              { sessionId := some "sid-1", isInitReq := true }].map
                (fun m => ("", m)))) ).2
      = [PostResult.createdAndDelivered "sid-1" 0,
         PostResult.delivered 0, PostResult.delivered 0] := by
  have h := (claim2_session_routing { registry := [], nextTransport := 0 }
    "sid-1" { sessionId := none, isInitReq := true }
    [{ sessionId := some "sid-1", isInitReq := false },
     { sessionId := some "sid-1", isInitReq := true }]
    (by decide) rfl rfl rfl (by decide)).2
  simpa using h

/-- Supporting lemma: for an unregistered session id that does not collide
with an Object.prototype property name (the ordinary case, in particular
every UUID), and likewise for a POST without a (truthy) session id whose
body is not an initialization request, the handler answers 400 and leaves
the server state -- registry and transport counter -- unchanged. -/
theorem postMcp_unknown_session (s : ServerState) (m : PostMsg) (g sid : String)
    (h : (m.sessionId = some sid ∧ sid ≠ "" ∧ s.registry.lookup sid = none
            ∧ sid ∉ objectProtoProps)
        ∨ (sidTruthy m.sessionId = false ∧ m.isInitReq = false)) :
    postMcp g s m = (s, PostResult.badRequest) := by
  rcases h with ⟨hm, hs, hl, hnp⟩ | ⟨hf, hi⟩
  · have hfound : foundTransport s m = none := by
      simp [foundTransport, transportsGet, hm, hs, hl, hnp]
    have htruthy : sidTruthy m.sessionId = true := by
      simp [sidTruthy, hm, hs]
    simp [postMcp, hfound, htruthy]
  · have hfound := foundTransport_of_falsy s m hf
    simp [postMcp, hfound, hf, hi]

/-- C5: the claim says every POST presenting a session id not present in
the registry is answered with the client error, the registry unchanged.
The code does this for ordinary unknown ids (zzz below, against both the
empty registry and one holding abc), but transports is a plain object
literal, so a presented id that names an Object.prototype property --
constructor below, likewise toString or the proto accessor -- was never
registered yet makes the truthy probe succeed: the handler takes the
reuse branch with the inherited non-transport value, handleRequest throws
a TypeError inside the async handler, and the 400 client error is never
sent. The registry is still unchanged; the response is not the claimed
client error. -/
theorem claim5_prototype_lookup_bug :
    postMcp "gen" ⟨[], 0⟩ ⟨some "constructor", false⟩
      = (⟨[], 0⟩, PostResult.crashedOnInherited)
    ∧ postMcp "gen" ⟨[], 0⟩ ⟨some "__proto__", true⟩
      = (⟨[], 0⟩, PostResult.crashedOnInherited)
    ∧ postMcp "gen" ⟨[("abc", 7)], 8⟩ ⟨some "constructor", false⟩
      = (⟨[("abc", 7)], 8⟩, PostResult.crashedOnInherited)
    ∧ postMcp "gen" ⟨[("abc", 7)], 8⟩ ⟨some "zzz", false⟩
      = (⟨[("abc", 7)], 8⟩, PostResult.badRequest)
    ∧ postMcp "gen" ⟨[], 0⟩ ⟨some "zzz", false⟩
      = (⟨[], 0⟩, PostResult.badRequest) := by
  refine ⟨?_, ?_, ?_, ?_, ?_⟩ <;> decide

/- ===================================================================
   Claim theorems: memoized initialization
   =================================================================== -/

theorem storeInv_init : StoreInv initStore := by
  constructor <;> simp [initStore]

theorem storeInv_step (s : StoreState) (e : IEvent) (h : StoreInv s) :
    StoreInv (storeStep s e) := by
  cases e with
  | storeInit =>
      by_cases hp : s.initPromiseSet
      · have heq : storeStep s IEvent.storeInit = s := by
          simp [storeStep, hp]
        rw [heq]; exact h
      · by_cases hi : s.storeInitialized
        · exact absurd (h.init_prom hi) hp
        · have hb : s.initPromiseSet = false := by simpa using hp
          have hbi : s.storeInitialized = false := by simpa using hi
          constructor
          · simp [storeStep, hb, hbi, h.sent_eq]
          · simp [storeStep, hb, hbi, h.notified_eq]
          · intro _
            simp [storeStep, hb, hbi]
          · intro hc
            simp [storeStep, hb, hbi] at hc
  | hostReply r =>
      by_cases ha : s.replyAwaited
      · have hai := h.awaited_prom (by simpa using ha)
        constructor
        · simp [storeStep, ha, h.sent_eq]
        · simp [storeStep, ha, h.notified_eq, hai.2]
        · intro hc
          simp [storeStep, ha] at hc
        · intro _
          simp [storeStep, ha, hai.1]
      · have heq : storeStep s (IEvent.hostReply r) = s := by
          simp [storeStep, ha]
        rw [heq]; exact h

theorem storeInv_foldl (es : List IEvent) :
    ∀ s, StoreInv s → StoreInv (es.foldl storeStep s) := by
  induction es with
  | nil => intro s h; exact h
  | cons e es ih =>
      intro s h
      exact ih _ (storeInv_step s e h)

theorem storeInv_run (es : List IEvent) : StoreInv (runStore es) :=
  storeInv_foldl es initStore storeInv_init

theorem storePromise_foldl (es : List IEvent) :
    ∀ s, StoreInv s →
      (es.foldl storeStep s).initPromiseSet
        = (s.initPromiseSet || decide (IEvent.storeInit ∈ es)) := by
  induction es with
  | nil => intro s _; simp
  | cons e es ih =>
      intro s h
      have hstep : (storeStep s e).initPromiseSet
          = (s.initPromiseSet || decide (e = IEvent.storeInit)) := by
        cases e with
        | storeInit =>
            by_cases hp : s.initPromiseSet
            · simp [storeStep, hp]
            · by_cases hi : s.storeInitialized
              · exact absurd (h.init_prom hi) hp
              · have hb : s.initPromiseSet = false := by simpa using hp
                have hbi : s.storeInitialized = false := by simpa using hi
                simp [storeStep, hb, hbi]
        | hostReply r =>
            by_cases ha : s.replyAwaited
            · simp [storeStep, ha, (h.awaited_prom (by simpa using ha)).1]
            · simp [storeStep, ha]
      rw [List.foldl_cons, ih _ (storeInv_step s e h), hstep]
      cases e with
      | storeInit => simp [List.mem_cons]
      | hostReply r => simp [List.mem_cons]

/-- C6: along any history of store initialize() calls and host replies,
the ui/initialize request is posted exactly once as soon as initialize()
has been called at all (later calls are absorbed by the memoized promise
and change nothing), at most one (and per successful initialization
exactly one) ui/notifications/initialized notification is posted, and the
host reply installs its hostContext (for example theme dark) as the cached
host context. -/
theorem claim6_initialize_idempotent (es : List IEvent) (r : UiInitializeResult) :
    (runStore es).uiInitializeSent = (if IEvent.storeInit ∈ es then 1 else 0)
    ∧ (runStore es).initializedNotified ≤ 1
    ∧ ((runStore es).initPromiseSet = true →
        storeStep (runStore es) IEvent.storeInit = runStore es)
    ∧ ((runStore es).replyAwaited = true →
        (storeStep (runStore es) (IEvent.hostReply r)).clientHostContext
            = r.hostContext
        ∧ (storeStep (runStore es) (IEvent.hostReply r)).initializedNotified = 1
        ∧ (storeStep (runStore es) (IEvent.hostReply r)).uiInitializeSent
            = (runStore es).uiInitializeSent) := by
  have hinv := storeInv_run es
  have hprom : (runStore es).initPromiseSet = decide (IEvent.storeInit ∈ es) := by
    have h := storePromise_foldl es initStore storeInv_init
    simpa [runStore, initStore] using h
  refine ⟨?_, ?_, ?_, ?_⟩
  · rw [hinv.sent_eq, hprom]
    by_cases hm : IEvent.storeInit ∈ es <;> simp [hm]
  · rw [hinv.notified_eq]
    by_cases hi : (runStore es).storeInitialized <;> simp [hi]
  · intro hp
    simp [storeStep, hp]
  · intro ha
    have hai := hinv.awaited_prom ha
    refine ⟨?_, ?_, ?_⟩
    · simp [storeStep, ha]
    · have h0 : (runStore es).initializedNotified = 0 := by
        rw [hinv.notified_eq, hai.2]; rfl
      simp [storeStep, ha, h0]
    · simp [storeStep, ha]

/-- Concrete run for C6: one initialize() call followed by the host reply
carrying hostContext theme dark installs that context, posts exactly one
initialized notification, and a repeated initialize() call afterwards is a
no-op. -/
theorem claim6_initialize_idempotent_witness :
    (storeStep (runStore [IEvent.storeInit])
        (IEvent.hostReply ⟨"2025-01-01", some [("theme", CtxVal.str "dark")]⟩)).clientHostContext
      = some [("theme", CtxVal.str "dark")]
    ∧ (storeStep (runStore [IEvent.storeInit])
        (IEvent.hostReply ⟨"2025-01-01", some [("theme", CtxVal.str "dark")]⟩)).initializedNotified
      = 1
    ∧ storeStep (runStore [IEvent.storeInit]) IEvent.storeInit
      = runStore [IEvent.storeInit] := by
  have h := claim6_initialize_idempotent [IEvent.storeInit]
    ⟨"2025-01-01", some [("theme", CtxVal.str "dark")]⟩
  exact ⟨(h.2.2.2 (by decide)).1, (h.2.2.2 (by decide)).2.1,
    h.2.2.1 (by decide)⟩

/- ===================================================================
   Claim theorems: host context merge
   =================================================================== -/

/-- C7: the cached host context is wholly replaced on initialization
(whatever was cached before) and afterwards updated by shallow key
overwrite on each host-context-changed notification, last write winning
per key -- both in the client cache (which merges once a context is
cached) and in the store cache; concretely, starting from an initialized
empty context, applying the updates a=1 then b=2 yields a context reading
a=1 and b=2, and applying a=3 on top yields a=3 and b=2. -/
theorem claim7_host_context_merge (old : Option Ctx) (r : Option Ctx)
    (c p : Ctx) (k : String) :
    applyInitializeHostContext old r = r
    ∧ ctxGet (mergeHostContext c p) k = (ctxGet p k).or (ctxGet c k)
    ∧ ctxGetOpt (clientApplyHostContextChanged (some c) (some p)) k
        = (ctxGet p k).or (ctxGet c k)
    ∧ ctxGetOpt (storeApplyHostContextChanged (some c) (some p)) k
        = (ctxGet p k).or (ctxGet c k)
    ∧ ctxGetOpt (clientApplyHostContextChanged (clientApplyHostContextChanged
        (some []) (some [("a", CtxVal.num 1)])) (some [("b", CtxVal.num 2)])) "a"
        = some (CtxVal.num 1)
    ∧ ctxGetOpt (clientApplyHostContextChanged (clientApplyHostContextChanged
        (some []) (some [("a", CtxVal.num 1)])) (some [("b", CtxVal.num 2)])) "b"
        = some (CtxVal.num 2)
    ∧ ctxGetOpt (clientApplyHostContextChanged (clientApplyHostContextChanged
        (clientApplyHostContextChanged (some []) (some [("a", CtxVal.num 1)]))
        (some [("b", CtxVal.num 2)])) (some [("a", CtxVal.num 3)])) "a"
        = some (CtxVal.num 3)
    ∧ ctxGetOpt (clientApplyHostContextChanged (clientApplyHostContextChanged
        (clientApplyHostContextChanged (some []) (some [("a", CtxVal.num 1)]))
        (some [("b", CtxVal.num 2)])) (some [("a", CtxVal.num 3)])) "b"
        = some (CtxVal.num 2) := by
  have hmerge : ctxGet (mergeHostContext c p) k = (ctxGet p k).or (ctxGet c k) := by
    simp only [mergeHostContext, ctxGet]
    exact lookup_append p c k
  refine ⟨rfl, hmerge, ?_, ?_, by decide, by decide, by decide, by decide⟩
  · simpa [clientApplyHostContextChanged, ctxGetOpt] using hmerge
  · simpa [storeApplyHostContextChanged, ctxGetOpt] using hmerge

/- ===================================================================
   Claim theorems: bubble_wrap input validation
   =================================================================== -/

/-- C8: invoking the bubble_wrap tool with a count outside 1..500 (for
example 0 or 501) fails: the handler of src/mcp-server.ts throws the range
error before building anything, so no UI resource and no structured
content is produced, and the zod refinement of src/mcp/server.ts rejects
the input before its handler runs. -/
theorem claim8_out_of_range_count (q : Rat) (h : q < 1 ∨ q > 500) :
    bubbleWrapHandler (some q)
        = Except.error "Bubble count must be between 1 and 500"
    ∧ (∀ out, bubbleWrapHandler (some q) ≠ Except.ok out)
    ∧ bubbleCountRefine q = false := by
  have herr : bubbleWrapHandler (some q)
      = Except.error "Bubble count must be between 1 and 500" := by
    simp only [bubbleWrapHandler, Option.getD_some]
    rw [if_pos h]
  have hok : ∀ out, bubbleWrapHandler (some q) ≠ Except.ok out := by
    intro out hc
    rw [herr] at hc
    cases hc
  refine ⟨herr, hok, ?_⟩
  rcases h with h | h
  · have hd : decide (1 ≤ q) = false := decide_eq_false (not_le.mpr h)
    simp [bubbleCountRefine, hd]
  · have hd : decide (q ≤ 500) = false := decide_eq_false (not_le.mpr h)
    simp [bubbleCountRefine, hd]

/-- Concrete runs for C8: count 0 is rejected by the handler and count 501
by the schema refinement. -/
theorem claim8_out_of_range_count_witness :
    bubbleWrapHandler (some 0)
        = Except.error "Bubble count must be between 1 and 500"
    ∧ bubbleCountRefine 501 = false := by
  refine ⟨(claim8_out_of_range_count 0 (Or.inl (by norm_num))).1,
    (claim8_out_of_range_count 501 (Or.inr (by norm_num))).2.2⟩
